import Mathlib

/-!
Shallow embedding of `packages/lib/server-only/license/license-client.ts`
(the Documenso license-verification client).

The TypeScript class `LicenseClient` reconciles a remote license authority
with a local cache: `start` registers a process-wide singleton and runs one
reconciliation cycle; the cycle loads the cached file, pings the license
server, runs a policy check, derives a status, and stores the merged record
in memory and on disk.  External effects (the cached file's contents, the
clock, the configured `NEXT_PRIVATE_DOCUMENSO_LICENSE_KEY`, file-system
faults) are passed explicitly; fallible steps return `Except` or `Option`.
-/

/-! ## Data model

The record types come from `packages/lib/types/license.ts`, which is not part
of the sources under verification; their shape is modelled from the spec's
data model (section 3): `LicenseRecord` carries a status enum, two timestamp
fields, a name, a cancellation bit, the license key and a flags mapping;
`CachedLicenseState` carries `lastChecked`, an optional license, the
requested key, `unauthorizedFlagUsage` and a derived-status enum.
-/

/-- Modelled from the spec: the remote authority's status enum for a
`LicenseRecord` ("ACTIVE | EXPIRED | CANCELED | ..."); the derived-only
verdicts NOT_FOUND and UNAUTHORIZED are not values the authority reports. -/
inductive LicenseStatus where
  | ACTIVE
  | EXPIRED
  | CANCELED
  deriving DecidableEq, Repr

/-- Modelled from the spec: the derived-status enum of `CachedLicenseState`
("ACTIVE | NOT_FOUND | UNAUTHORIZED | EXPIRED | CANCELED"). -/
inductive DerivedStatus where
  | ACTIVE
  | EXPIRED
  | CANCELED
  | NOT_FOUND
  | UNAUTHORIZED
  deriving DecidableEq, Repr

/-- The assignment `status = response.data.status` at line 118 of the source
copies an authority status into the derived-status field. -/
def LicenseStatus.toDerived : LicenseStatus → DerivedStatus
  | .ACTIVE => .ACTIVE
  | .EXPIRED => .EXPIRED
  | .CANCELED => .CANCELED

/-- Modelled from the spec: `LicenseRecord` (the `data` payload of the
authority response).  Timestamps are kept as their ISO-serialized strings. -/
structure LicenseRecord where
  status : LicenseStatus
  createdAt : String
  name : String
  periodEnd : String
  cancelAtPeriodEnd : Bool
  licenseKey : String
  flags : List (String × Bool)
  deriving DecidableEq, Repr

/-- Modelled from the spec: the authority response (`TLicenseResponse`),
`success` plus an optional `data` object matching `LicenseRecord`. -/
structure TLicenseResponse where
  success : Bool
  data : Option LicenseRecord
  deriving DecidableEq, Repr

/-- Modelled from the spec: `CachedLicenseState` (`TCachedLicense`), the one
record the client persists and holds in memory. -/
structure TCachedLicense where
  lastChecked : String
  license : Option LicenseRecord
  requestedLicenseKey : Option String
  unauthorizedFlagUsage : Bool
  derivedStatus : DerivedStatus
  deriving DecidableEq, Repr

/-! ## JSON values and the cache file encoding

`saveToFile` writes `JSON.stringify(data)`; `loadFromFile` reads the file and
runs `ZCachedLicenseSchema.parse(JSON.parse(contents))`.  The durable file is
modelled at the JSON-value level: `Option JsonValue`, `none` meaning the file
is missing or unparseable. -/

/-- A JSON value as needed by the cache file (the record holds no numbers). -/
inductive JsonValue where
  | null : JsonValue
  | bool : Bool → JsonValue
  | str : String → JsonValue
  | obj : List (String × JsonValue) → JsonValue

/-- Key lookup in a JSON object's field list (first match wins). -/
def jLookup : List (String × JsonValue) → String → Option JsonValue
  | [], _ => none
  | (k, v) :: rest, key => if k = key then some v else jLookup rest key

def encodeStatus : LicenseStatus → JsonValue
  | .ACTIVE => .str "ACTIVE"
  | .EXPIRED => .str "EXPIRED"
  | .CANCELED => .str "CANCELED"

def encodeDerived : DerivedStatus → JsonValue
  | .ACTIVE => .str "ACTIVE"
  | .EXPIRED => .str "EXPIRED"
  | .CANCELED => .str "CANCELED"
  | .NOT_FOUND => .str "NOT_FOUND"
  | .UNAUTHORIZED => .str "UNAUTHORIZED"

def encodeFlags (flags : List (String × Bool)) : List (String × JsonValue) :=
  flags.map fun p => (p.1, JsonValue.bool p.2)

/-- `JSON.stringify` of the license record inside the cached state. -/
def encodeLicenseRecord (d : LicenseRecord) : JsonValue :=
  .obj [("status", encodeStatus d.status),
        ("createdAt", .str d.createdAt),
        ("name", .str d.name),
        ("periodEnd", .str d.periodEnd),
        ("cancelAtPeriodEnd", .bool d.cancelAtPeriodEnd),
        ("licenseKey", .str d.licenseKey),
        ("flags", .obj (encodeFlags d.flags))]

/-- `JSON.stringify(data)` for the cached state: a null `license` serializes
as JSON null, an undefined `requestedLicenseKey` is omitted from the object. -/
def encodeCached (c : TCachedLicense) : JsonValue :=
  .obj ([("lastChecked", JsonValue.str c.lastChecked),
         ("license", match c.license with
            | some d => encodeLicenseRecord d
            | none => JsonValue.null)]
    ++ (match c.requestedLicenseKey with
          | some k => [("requestedLicenseKey", JsonValue.str k)]
          | none => [])
    ++ [("unauthorizedFlagUsage", JsonValue.bool c.unauthorizedFlagUsage),
        ("derivedStatus", encodeDerived c.derivedStatus)])

def decodeStatus : JsonValue → Option LicenseStatus
  | .str "ACTIVE" => some .ACTIVE
  | .str "EXPIRED" => some .EXPIRED
  | .str "CANCELED" => some .CANCELED
  | _ => none

def decodeDerived : JsonValue → Option DerivedStatus
  | .str "ACTIVE" => some .ACTIVE
  | .str "EXPIRED" => some .EXPIRED
  | .str "CANCELED" => some .CANCELED
  | .str "NOT_FOUND" => some .NOT_FOUND
  | .str "UNAUTHORIZED" => some .UNAUTHORIZED
  | _ => none

def decodeFlags : List (String × JsonValue) → Option (List (String × Bool))
  | [] => some []
  | (k, .bool b) :: rest => Option.map (fun l => (k, b) :: l) (decodeFlags rest)
  | _ => none

/-- Modelled from the spec: schema validation of the nested license record
(part of `ZCachedLicenseSchema` in `packages/lib/types/license.ts`, not under
the verified sources); every field of the spec's `LicenseRecord` must be
present with the right type. -/
def decodeLicenseRecord (j : JsonValue) : Option LicenseRecord :=
  match j with
  | .obj fields =>
    match jLookup fields "status", jLookup fields "createdAt",
          jLookup fields "name", jLookup fields "periodEnd",
          jLookup fields "cancelAtPeriodEnd", jLookup fields "licenseKey",
          jLookup fields "flags" with
    | some js, some (.str ca), some (.str n), some (.str pe),
      some (.bool cb), some (.str k), some (.obj jf) =>
        match decodeStatus js, decodeFlags jf with
        | some st, some fl => some ⟨st, ca, n, pe, cb, k, fl⟩
        | _, _ => none
    | _, _, _, _, _, _, _ => none
  | _ => none

/-- Modelled from the spec: `ZCachedLicenseSchema.parse` (schema in
`packages/lib/types/license.ts`, not under the verified sources), validating
the shape of `CachedLicenseState`: `license` is nullable, the requested key
optional, and a record failing validation is rejected. -/
def decodeCached (j : JsonValue) : Option TCachedLicense :=
  match j with
  | .obj fields =>
    match jLookup fields "lastChecked", jLookup fields "license",
          jLookup fields "unauthorizedFlagUsage",
          jLookup fields "derivedStatus" with
    | some (.str lastChecked), some jl, some (.bool u), some jd =>
      let requestedKey : Option (Option String) :=
        match jLookup fields "requestedLicenseKey" with
        | none => some none
        | some (.str s) => some (some s)
        | some _ => none
      let license : Option (Option LicenseRecord) :=
        match jl with
        | .null => some none
        | _ =>
          match decodeLicenseRecord jl with
          | some d => some (some d)
          | none => none
      match requestedKey, license, decodeDerived jd with
      | some rk, some lic, some ds => some ⟨lastChecked, lic, rk, u, ds⟩
      | _, _, _ => none
    | _, _, _, _ => none
  | _ => none

theorem decodeFlags_encodeFlags (fl : List (String × Bool)) :
    decodeFlags (encodeFlags fl) = some fl := by
  induction fl with
  | nil => rfl
  | cons p t ih =>
    obtain ⟨k, b⟩ := p
    simp [encodeFlags, decodeFlags] at ih ⊢
    simpa [encodeFlags] using ih

theorem decodeLicenseRecord_encode (d : LicenseRecord) :
    decodeLicenseRecord (encodeLicenseRecord d) = some d := by
  obtain ⟨st, ca, n, pe, cb, k, fl⟩ := d
  cases st <;>
    simp [encodeLicenseRecord, decodeLicenseRecord, encodeStatus, decodeStatus,
      jLookup, decodeFlags_encodeFlags]

theorem decodeLicenseRecord_encode_fields (st : LicenseStatus) (ca n pe : String)
    (cb : Bool) (k : String) (fl : List (String × Bool)) :
    decodeLicenseRecord (JsonValue.obj
      [("status", encodeStatus st), ("createdAt", JsonValue.str ca),
       ("name", JsonValue.str n), ("periodEnd", JsonValue.str pe),
       ("cancelAtPeriodEnd", JsonValue.bool cb), ("licenseKey", JsonValue.str k),
       ("flags", JsonValue.obj (encodeFlags fl))]) = some ⟨st, ca, n, pe, cb, k, fl⟩ :=
  decodeLicenseRecord_encode ⟨st, ca, n, pe, cb, k, fl⟩

theorem decodeCached_encodeCached (c : TCachedLicense) :
    decodeCached (encodeCached c) = some c := by
  obtain ⟨lc, lic, rk, u, ds⟩ := c
  cases lic with
  | none =>
    cases rk <;> cases ds <;>
      simp [encodeCached, decodeCached, encodeDerived, decodeDerived, jLookup]
  | some d =>
    cases rk <;> cases ds <;>
      simp [encodeCached, decodeCached, encodeDerived, decodeDerived, jLookup,
        encodeLicenseRecord, decodeLicenseRecord_encode_fields]

/-! ## Remote Authority Client

`pingLicenseServer` (lines 148-197 of the source).  The method checks the
configured `LICENSE_KEY` with JavaScript truthiness (`!LICENSE_KEY`, so an
unset key and the empty string both count as unconfigured) and otherwise
resolves to a fixed mock response; the `fetch` call is commented out, so the
function performs no network request on any path and never rejects.  The
second component counts network requests made during the call. -/

/-- JavaScript falsiness of an optional string: undefined or the empty string. -/
def strFalsy : Option String → Bool
  | none => true
  | some s => s == ""

/-- The fixed mock `data` payload built at lines 158-174 of the source:
status ACTIVE, the configured key, and every feature flag enabled. -/
def mockLicenseRecord (key : String) : LicenseRecord :=
  { status := .ACTIVE
    createdAt := "2024-01-01T00:00:00.000Z"
    name := "Enterprise License (Local)"
    periodEnd := "2030-12-31T00:00:00.000Z"
    cancelAtPeriodEnd := false
    licenseKey := key
    flags := [("emailDomains", true), ("embedAuthoring", true),
              ("embedAuthoringWhiteLabel", true), ("cfr21", true),
              ("authenticationPortal", true), ("billing", true)] }

def mockLicenseResponse (key : String) : TLicenseResponse :=
  { success := true, data := some (mockLicenseRecord key) }

/-- `pingLicenseServer`: `(result, number of network requests made)`. -/
def pingLicenseServer (licenseKey : Option String) : Option TLicenseResponse × Nat :=
  if strFalsy licenseKey then (none, 0)
  else (some (mockLicenseResponse (licenseKey.getD "")), 0)

/-- Error taxonomy of the subsystem (spec section 7). -/
inductive LicenseError where
  | unreachable
  | cacheRead
  | cacheWrite
  deriving DecidableEq, Repr

/-- The ping step as the caller of `await this.pingLicenseServer()` sees it:
it either resolves or rejects.  The source's `pingLicenseServer` never
rejects (the fetch is bypassed), so it always resolves. -/
def pingLicenseServerE (licenseKey : Option String) :
    Except LicenseError (Option TLicenseResponse) :=
  Except.ok (pingLicenseServer licenseKey).1

/-! ## Policy Checker

`checkUnauthorizedFlagUsage` (lines 225-232): the live body logs and returns
`Promise.resolve(false)` for every input — the genuine check is commented
out.  `findUnauthorizedUsage` models the spec's contract for comparison. -/

/-- The live policy check: always `false`, whatever flags were granted. -/
def checkUnauthorizedFlagUsage (_licenseFlags : List (String × Bool)) : Bool :=
  false

/-- A feature-flag definition of the host (`SUBSCRIPTION_CLAIM_FEATURE_FLAGS`
entry): its key and whether it is enterprise-gated. -/
structure FlagDefinition where
  key : String
  isEnterprise : Bool
  deriving DecidableEq, Repr

/-- The host-supplied collaborators of the Policy Checker: the billing-enabled
configuration bit, the flag definitions, and the claims enumerator's records
(the flags object of each live organisation claim). -/
structure HostRecords where
  billingEnabled : Bool
  flagDefs : List FlagDefinition
  organisationClaims : List (List (String × Bool))
  deriving DecidableEq, Repr

/-- Truthiness of a flag in a flags mapping: present and true. -/
def lookupFlag : List (String × Bool) → String → Bool
  | [], _ => false
  | (k, b) :: rest, key => if k = key then b else lookupFlag rest key

/-- Modelled from the spec: `findUnauthorizedUsage` (section 4.3), the genuine
policy check whose implementation is commented out in the source: true when a
live organisation claim uses an enterprise-gated flag not granted, or when
billing is enabled by host configuration but not granted. -/
def findUnauthorizedUsage (host : HostRecords) (grantedFlags : List (String × Bool)) :
    Bool :=
  let disallowedFlags := host.flagDefs.filter fun f =>
    f.isEnterprise && !(lookupFlag grantedFlags f.key)
  let billingViolation := host.billingEnabled && !(lookupFlag grantedFlags "billing")
  let claimViolation := host.organisationClaims.any fun claim =>
    disallowedFlags.any fun f => lookupFlag claim f.key
  billingViolation || claimViolation

/-! ## Cache Store

`saveToFile` / `loadFromFile` (lines 199-219).  The durable file is modelled
as `Option JsonValue` (`none` = missing or not valid JSON); `readFails` and
`writeFails` inject the file-system faults the two `try`/`catch` blocks
guard against. -/

/-- The raw read step: `fs.readFile` rejects when the file is missing or
unreadable. -/
def readFileE (file : Option JsonValue) (readFails : Bool) :
    Except LicenseError JsonValue :=
  if readFails then .error .cacheRead
  else
    match file with
    | none => .error .cacheRead
    | some j => .ok j

/-- `loadFromFile`: read, `JSON.parse`, `ZCachedLicenseSchema.parse`, with
every failure caught and turned into `null`. -/
def loadFromFile (file : Option JsonValue) (readFails : Bool) :
    Option TCachedLicense :=
  match readFileE file readFails with
  | .error _ => none
  | .ok j => decodeCached j

/-- `saveToFile`: serialize and overwrite; a write failure is caught and
logged, leaving the previous contents in place. -/
def saveToFile (file : Option JsonValue) (writeFails : Bool)
    (data : TCachedLicense) : Option JsonValue :=
  if writeFails then file else some (encodeCached data)

/-! ## License Reconciler

`initialize` (lines 86-141 of the source), embedded as `initializeWith`, a
pure transition on the pair (in-memory `cachedLicense`, durable file).  The
outcome of `await this.pingLicenseServer()` — resolution with a value, or
rejection caught at lines 99-104 — is a parameter, so that the `catch`
branch is part of the embedding; `initializeCycle` instantiates it with the
actual `pingLicenseServer`, which always resolves. -/

/-- The outcome of awaiting the ping: resolved with a value, or rejected. -/
inductive PingOutcome where
  | ok (response : Option TLicenseResponse)
  | err
  deriving DecidableEq, Repr

/-- Injected environment faults for one cycle: `fs.readFile` rejecting and
`fs.writeFile` rejecting. -/
structure Faults where
  readFails : Bool
  writeFails : Bool
  deriving DecidableEq, Repr

/-- The two slots a cycle may write: the instance's in-memory `cachedLicense`
and the durable license file. -/
structure CycleResult where
  mem : Option TCachedLicense
  file : Option JsonValue

/-- `response?.data` — the optional payload of an optional response. -/
def responseData (response : Option TLicenseResponse) : Option LicenseRecord :=
  Option.bind response fun r => r.data

/-- Lines 115-123 of the source: `status` starts as NOT_FOUND, is overwritten
by `response?.data?.status` when that is present, and finally by UNAUTHORIZED
when `unauthorizedFlagUsage` holds. -/
def deriveStatus (response : Option TLicenseResponse)
    (unauthorizedFlagUsage : Bool) : DerivedStatus :=
  let status : DerivedStatus := .NOT_FOUND
  let status : DerivedStatus :=
    match responseData response with
    | some d => d.status.toDerived
    | none => status
  if unauthorizedFlagUsage then .UNAUTHORIZED else status

/-- Lines 86-141: load the cached file (seeding the in-memory slot when a
record was found), then branch on the awaited ping outcome: a rejection is
caught and the function returns with the seeded state; a resolution runs the
policy check, derives the status, and replaces memory and file with the
fresh record. -/
def initializeWith (licenseKey : Option String) (mem : Option TCachedLicense)
    (file : Option JsonValue) (faults : Faults) (ping : PingOutcome)
    (now : String) : CycleResult :=
  let cachedLicense := loadFromFile file faults.readFails
  let mem : Option TCachedLicense :=
    match cachedLicense with
    | some c => some c
    | none => mem
  match ping with
  | .err => { mem := mem, file := file }
  | .ok response =>
    let allowedFlags : List (String × Bool) :=
      match responseData response with
      | some d => d.flags
      | none => []
    let unauthorizedFlagUsage := checkUnauthorizedFlagUsage allowedFlags
    let status := deriveStatus response unauthorizedFlagUsage
    let data : TCachedLicense :=
      { lastChecked := now
        license := responseData response
        requestedLicenseKey := licenseKey
        unauthorizedFlagUsage := unauthorizedFlagUsage
        derivedStatus := status }
    { mem := some data, file := saveToFile file faults.writeFails data }

/-- One full reconciliation cycle with the actual ping step. -/
def initializeCycle (licenseKey : Option String) (mem : Option TCachedLicense)
    (file : Option JsonValue) (faults : Faults) (now : String) : CycleResult :=
  initializeWith licenseKey mem file faults
    (PingOutcome.ok (pingLicenseServer licenseKey).1) now

/-- `resync` (lines 82-84): exactly one reconciliation cycle. -/
def resync (licenseKey : Option String) (mem : Option TCachedLicense)
    (file : Option JsonValue) (faults : Faults) (now : String) : CycleResult :=
  initializeCycle licenseKey mem file faults now

/-- `getCachedLicense` (lines 67-75): the in-memory record when present,
otherwise one fallback `loadFromFile`; no remote call. -/
def getCachedLicense (mem : Option TCachedLicense) (file : Option JsonValue)
    (readFails : Bool) : Option TCachedLicense :=
  match mem with
  | some c => some c
  | none => loadFromFile file readFails

/-! ## Singleton lifecycle

`start` / `getInstance` (lines 40-65).  The process state is the
`globalThis.__documenso_license_client__` slot — absent, or a registered
instance carrying its in-memory `cachedLicense` — together with the durable
file. -/

structure ProcessState where
  globalInstance : Option (Option TCachedLicense)
  file : Option JsonValue

/-- `start`, instrumented with the number of reconciliation cycles it runs:
an already-registered instance short-circuits (zero cycles); otherwise the
fresh instance is registered and one cycle runs, its error (if any) caught. -/
def startCounted (licenseKey : Option String) (st : ProcessState)
    (faults : Faults) (now : String) : ProcessState × Nat :=
  match st.globalInstance with
  | some _ => (st, 0)
  | none =>
    let r := initializeCycle licenseKey none st.file faults now
    ({ globalInstance := some r.mem, file := r.file }, 1)

/-- `start` (lines 40-55). -/
def start (licenseKey : Option String) (st : ProcessState) (faults : Faults)
    (now : String) : ProcessState :=
  (startCounted licenseKey st faults now).1

/-- `getInstance` (lines 63-65): the shared instance, or absent. -/
def getInstance (st : ProcessState) : Option (Option TCachedLicense) :=
  st.globalInstance

/-! ## Exception-level embedding

The same entry points typed in `Except LicenseError`, so that "no internal
failure propagates to the caller" is a statement and not a modelling
artifact: each failure point is injected, each `catch` of the source is a
recovery, and an uncaught error would surface as `Except.error`. -/

/-- `initialize` with every internal failure surfaced in the monad: the
cache read (recovered inside `loadFromFile`), the ping (recovered by the
`try`/`catch` at lines 97-104), and the cache write (recovered inside
`saveToFile`). -/
def initializeE (licenseKey : Option String) (mem : Option TCachedLicense)
    (file : Option JsonValue) (faults : Faults) (ping : PingOutcome)
    (now : String) : Except LicenseError CycleResult :=
  let cachedLicense : Option TCachedLicense :=
    match readFileE file faults.readFails with
    | .error _ => none
    | .ok j => decodeCached j
  let mem : Option TCachedLicense :=
    match cachedLicense with
    | some c => some c
    | none => mem
  let pingResult : Except LicenseError (Option TLicenseResponse) :=
    match ping with
    | .err => .error .unreachable
    | .ok response => pingLicenseServerE licenseKey |>.map fun _ => response
  match pingResult with
  | .error _ => .ok { mem := mem, file := file }
  | .ok response =>
    let allowedFlags : List (String × Bool) :=
      match responseData response with
      | some d => d.flags
      | none => []
    let unauthorizedFlagUsage := checkUnauthorizedFlagUsage allowedFlags
    let status := deriveStatus response unauthorizedFlagUsage
    let data : TCachedLicense :=
      { lastChecked := now
        license := responseData response
        requestedLicenseKey := licenseKey
        unauthorizedFlagUsage := unauthorizedFlagUsage
        derivedStatus := status }
    let writeResult : Except LicenseError Unit :=
      if faults.writeFails then .error .cacheWrite else .ok ()
    let newFile : Option JsonValue :=
      match writeResult with
      | .error _ => file
      | .ok _ => some (encodeCached data)
    .ok { mem := some data, file := newFile }

/-- `resync` in the exception-level embedding: it runs `initialize` with no
`try`/`catch` of its own, so it errors exactly when `initialize` does. -/
def resyncE (licenseKey : Option String) (mem : Option TCachedLicense)
    (file : Option JsonValue) (faults : Faults) (ping : PingOutcome)
    (now : String) : Except LicenseError CycleResult :=
  initializeE licenseKey mem file faults ping now

/-- `start` in the exception-level embedding: registration happens before
the first cycle, and the `try`/`catch` at lines 49-54 swallows any cycle
error, leaving the registered instance in place. -/
def startE (licenseKey : Option String) (st : ProcessState) (faults : Faults)
    (ping : PingOutcome) (now : String) : ProcessState :=
  match st.globalInstance with
  | some _ => st
  | none =>
    match initializeE licenseKey none st.file faults ping now with
    | .ok r => { globalInstance := some r.mem, file := r.file }
    | .error _ => { globalInstance := some none, file := st.file }

/-! ## Helper lemmas -/

/-- The record `data` built at lines 125-131 for a cycle whose ping resolved
with `response` at time `now`. -/
def cycleRecord (licenseKey : Option String) (response : Option TLicenseResponse)
    (now : String) : TCachedLicense :=
  { lastChecked := now
    license := responseData response
    requestedLicenseKey := licenseKey
    unauthorizedFlagUsage := checkUnauthorizedFlagUsage
      (match responseData response with
       | some d => d.flags
       | none => [])
    derivedStatus := deriveStatus response
      (checkUnauthorizedFlagUsage
        (match responseData response with
         | some d => d.flags
         | none => [])) }

theorem initializeWith_ok_eq (licenseKey : Option String)
    (mem : Option TCachedLicense) (file : Option JsonValue) (faults : Faults)
    (response : Option TLicenseResponse) (now : String) :
    initializeWith licenseKey mem file faults (PingOutcome.ok response) now =
      { mem := some (cycleRecord licenseKey response now)
        file := saveToFile file faults.writeFails
          (cycleRecord licenseKey response now) } := rfl

theorem deriveStatus_false_ne_unauthorized (response : Option TLicenseResponse) :
    deriveStatus response false ≠ DerivedStatus.UNAUTHORIZED := by
  simp only [deriveStatus]
  cases h : responseData response with
  | none => simp [h]
  | some d => cases hs : d.status <;> simp [h, hs, LicenseStatus.toDerived]

/-! ## Claims -/

/-- C1: every reconciliation cycle that reaches the derive-status step (its
ping resolved) stores a record whose derived status follows the precedence of
lines 115-123: UNAUTHORIZED when `unauthorizedFlagUsage` is set, otherwise
the authority's reported status when present, otherwise NOT_FOUND. -/
theorem c1_derive_status_precedence (licenseKey : Option String)
    (mem : Option TCachedLicense) (file : Option JsonValue) (faults : Faults)
    (response : Option TLicenseResponse) (now : String) :
    ∃ rec : TCachedLicense,
      (initializeWith licenseKey mem file faults (PingOutcome.ok response) now).mem
        = some rec ∧
      rec.derivedStatus =
        (if rec.unauthorizedFlagUsage = true then DerivedStatus.UNAUTHORIZED
         else
           match responseData response with
           | some d => d.status.toDerived
           | none => DerivedStatus.NOT_FOUND) := by
  refine ⟨cycleRecord licenseKey response now, rfl, ?_⟩
  cases h : responseData response <;>
    simp [cycleRecord, deriveStatus, checkUnauthorizedFlagUsage, h]

/-- C2: the derive step yields UNAUTHORIZED exactly when the policy check
flagged unauthorized usage, whatever status the authority reported, and so
every record stored by a successful cycle satisfies
`derivedStatus = UNAUTHORIZED ↔ unauthorizedFlagUsage = true`. -/
theorem c2_unauthorized_iff :
    (∀ (response : Option TLicenseResponse) (u : Bool),
      deriveStatus response u = DerivedStatus.UNAUTHORIZED ↔ u = true) ∧
    ∀ (licenseKey : Option String) (mem : Option TCachedLicense)
      (file : Option JsonValue) (faults : Faults)
      (response : Option TLicenseResponse) (now : String),
      ∃ rec : TCachedLicense,
        (initializeWith licenseKey mem file faults (PingOutcome.ok response) now).mem
          = some rec ∧
        (rec.derivedStatus = DerivedStatus.UNAUTHORIZED ↔
          rec.unauthorizedFlagUsage = true) := by
  have key : ∀ (response : Option TLicenseResponse) (u : Bool),
      deriveStatus response u = DerivedStatus.UNAUTHORIZED ↔ u = true := by
    intro response u
    cases u with
    | false => simp [deriveStatus_false_ne_unauthorized response]
    | true => simp [deriveStatus]
  refine ⟨key, ?_⟩
  intro licenseKey mem file faults response now
  exact ⟨cycleRecord licenseKey response now, rfl, by
    simpa [cycleRecord] using
      key response (checkUnauthorizedFlagUsage
        (match responseData response with
         | some d => d.flags
         | none => []))⟩

/-- C3: every record a reconciliation cycle of the client stores — in the
in-memory slot, and in the durable file when the write goes through —
satisfies the invariant that an absent license forces derived status
NOT_FOUND. -/
theorem c3_license_absent_invariant (licenseKey : Option String)
    (mem : Option TCachedLicense) (file : Option JsonValue) (faults : Faults)
    (now : String) :
    ∃ rec : TCachedLicense,
      (initializeCycle licenseKey mem file faults now).mem = some rec ∧
      (rec.license = none → rec.derivedStatus = DerivedStatus.NOT_FOUND) ∧
      (faults.writeFails = false →
        (initializeCycle licenseKey mem file faults now).file
          = some (encodeCached rec)) := by
  refine ⟨cycleRecord licenseKey (pingLicenseServer licenseKey).1 now, rfl, ?_, ?_⟩
  · intro h
    have : responseData (pingLicenseServer licenseKey).1 = none := h
    simp [cycleRecord, deriveStatus, checkUnauthorizedFlagUsage, this]
  · intro hw
    simp only [initializeCycle, initializeWith_ok_eq, saveToFile, hw]
    simp

/-- C4: when the ping rejects and a prior record was loaded from the file,
the cycle leaves that record as the in-memory state (its `lastChecked`
untouched), leaves the durable file unwritten, and `getCachedLicense`
returns it. -/
theorem c4_unreachable_keeps_cache (licenseKey : Option String)
    (mem : Option TCachedLicense) (file : Option JsonValue) (faults : Faults)
    (now : String) (prev : TCachedLicense)
    (h : loadFromFile file faults.readFails = some prev) :
    (initializeWith licenseKey mem file faults PingOutcome.err now).mem
      = some prev ∧
    (initializeWith licenseKey mem file faults PingOutcome.err now).file = file ∧
    getCachedLicense
      (initializeWith licenseKey mem file faults PingOutcome.err now).mem
      file faults.readFails = some prev := by
  refine ⟨?_, rfl, ?_⟩ <;> simp [initializeWith, h, getCachedLicense]

/-- A sample cached record (an older ACTIVE state from a previous run), used
to instantiate hypotheses at concrete inputs. -/
def sampleCached : TCachedLicense :=
  { lastChecked := "2024-01-02T03:04:05.000Z"
    license := some (mockLicenseRecord "OLD-KEY")
    requestedLicenseKey := some "OLD-KEY"
    unauthorizedFlagUsage := false
    derivedStatus := .ACTIVE }

/-- Witness for C4 at a concrete input: the file holds `sampleCached`, the
ping rejects, and the cycle keeps the prior ACTIVE record unchanged. -/
theorem c4_unreachable_keeps_cache_witness :
    loadFromFile (some (encodeCached sampleCached)) (false : Bool)
      = some sampleCached ∧
    ((initializeWith none none (some (encodeCached sampleCached)) ⟨false, false⟩
        PingOutcome.err "2025-06-07T00:00:00.000Z").mem = some sampleCached ∧
      (initializeWith none none (some (encodeCached sampleCached)) ⟨false, false⟩
        PingOutcome.err "2025-06-07T00:00:00.000Z").file
        = some (encodeCached sampleCached) ∧
      getCachedLicense
        (initializeWith none none (some (encodeCached sampleCached)) ⟨false, false⟩
          PingOutcome.err "2025-06-07T00:00:00.000Z").mem
        (some (encodeCached sampleCached)) (false : Bool) = some sampleCached) :=
  ⟨rfl, c4_unreachable_keeps_cache none none (some (encodeCached sampleCached))
    ⟨false, false⟩ "2025-06-07T00:00:00.000Z" sampleCached rfl⟩

/-- C5: evaluation at the failing input.  With an empty granted-flags mapping
the live policy check still returns `false` (the bypass at lines 225-232),
and a full cycle with no remote response records
`unauthorizedFlagUsage = false`; the spec's policy check
(`findUnauthorizedUsage`) on the same input — a host with billing enabled and
an organisation claim using the enterprise flag cfr21 — returns `true`. -/
theorem c5_policy_bypass_eval :
    checkUnauthorizedFlagUsage [] = false ∧
    (initializeCycle none none none ⟨false, false⟩ "2025-03-03T00:00:00.000Z").mem
      = some { lastChecked := "2025-03-03T00:00:00.000Z", license := none,
               requestedLicenseKey := none, unauthorizedFlagUsage := false,
               derivedStatus := DerivedStatus.NOT_FOUND } ∧
    findUnauthorizedUsage
      { billingEnabled := true
        flagDefs := [{ key := "cfr21", isEnterprise := true }]
        organisationClaims := [[("cfr21", true)]] } [] = true :=
  ⟨rfl, rfl, rfl⟩

/-- C6: `start` is idempotent — from a fresh process state the first call
runs exactly one reconciliation cycle, the second call runs none and returns
the same state, and `getInstance` observes the same registered instance after
both calls. -/
theorem c6_start_idempotent (licenseKey : Option String) (file : Option JsonValue)
    (f1 f2 : Faults) (t1 t2 : String) :
    (startCounted licenseKey ⟨none, file⟩ f1 t1).2 = 1 ∧
    (startCounted licenseKey (start licenseKey ⟨none, file⟩ f1 t1) f2 t2).2 = 0 ∧
    start licenseKey (start licenseKey ⟨none, file⟩ f1 t1) f2 t2
      = start licenseKey ⟨none, file⟩ f1 t1 ∧
    getInstance (start licenseKey (start licenseKey ⟨none, file⟩ f1 t1) f2 t2)
      = getInstance (start licenseKey ⟨none, file⟩ f1 t1) ∧
    (getInstance (start licenseKey ⟨none, file⟩ f1 t1)).isSome = true :=
  ⟨rfl, rfl, rfl, rfl, rfl⟩

/-- C7: no internal failure of a reconciliation cycle escapes the entry
points: `initialize` (and hence `resync`) returns normally for every
combination of cache-read fault, ping rejection and cache-write fault, and
`start` always leaves the singleton registered. -/
theorem c7_no_error_propagation (licenseKey : Option String)
    (mem : Option TCachedLicense) (file : Option JsonValue) (faults : Faults)
    (ping : PingOutcome) (now : String) :
    (∃ r, initializeE licenseKey mem file faults ping now = Except.ok r) ∧
    (∃ r, resyncE licenseKey mem file faults ping now = Except.ok r) ∧
    (getInstance (startE licenseKey ⟨none, file⟩ faults ping now)).isSome = true := by
  refine ⟨?_, ?_, ?_⟩
  · cases ping <;> exact ⟨_, rfl⟩
  · cases ping <;> exact ⟨_, rfl⟩
  · cases ping <;> rfl

/-- C8: with no configured license key (unset, or empty hence falsy), the
ping returns absent at once with zero network requests — a resolution, not
an `Unreachable` rejection — and the cycle stores a record with derived
status NOT_FOUND, no license, and `unauthorizedFlagUsage = false`. -/
theorem c8_no_key_not_found (licenseKey : Option String)
    (mem : Option TCachedLicense) (file : Option JsonValue) (faults : Faults)
    (now : String) (h : strFalsy licenseKey = true) :
    pingLicenseServer licenseKey = (none, 0) ∧
    pingLicenseServerE licenseKey = Except.ok none ∧
    ∃ rec : TCachedLicense,
      (initializeCycle licenseKey mem file faults now).mem = some rec ∧
      rec.derivedStatus = DerivedStatus.NOT_FOUND ∧
      rec.unauthorizedFlagUsage = false ∧
      rec.license = none := by
  have hp : pingLicenseServer licenseKey = (none, 0) := by
    simp [pingLicenseServer, h]
  have hp1 : (pingLicenseServer licenseKey).1 = none := by rw [hp]
  refine ⟨hp, by simp [pingLicenseServerE, hp1], cycleRecord licenseKey none now,
    ?_, rfl, rfl, rfl⟩
  simp only [initializeCycle, hp1, initializeWith_ok_eq]

/-- Witness for C8 at a concrete input: an unset key. -/
theorem c8_no_key_not_found_witness :
    strFalsy none = true ∧
    (pingLicenseServer none = (none, 0) ∧
      pingLicenseServerE none = Except.ok none ∧
      ∃ rec : TCachedLicense,
        (initializeCycle none none none ⟨false, false⟩
          "2025-04-04T00:00:00.000Z").mem = some rec ∧
        rec.derivedStatus = DerivedStatus.NOT_FOUND ∧
        rec.unauthorizedFlagUsage = false ∧
        rec.license = none) :=
  ⟨rfl, c8_no_key_not_found none none none ⟨false, false⟩
    "2025-04-04T00:00:00.000Z" rfl⟩

/-- C9: persisting a cached state through the Cache Store and loading it back
yields the same record field-for-field, nested license record (timestamps and
flags mapping included) and all. -/
theorem c9_round_trip (c : TCachedLicense) (file : Option JsonValue) :
    loadFromFile (saveToFile file false c) false = some c := by
  simp [saveToFile, loadFromFile, readFileE, decodeCached_encodeCached c]

/-- C10 counterexample: a cycle with a configured key whose file write fails
replaces the in-memory state with the fresh ACTIVE mock record but leaves the
durable file untouched (here: still absent), refuting the claim that every
such cycle also replaces the durable file. -/
theorem c10_persist_failure_counterexample :
    (initializeCycle (some "K") none none ⟨false, true⟩
      "2025-02-02T00:00:00.000Z").mem
      = some { lastChecked := "2025-02-02T00:00:00.000Z",
               license := some (mockLicenseRecord "K"),
               requestedLicenseKey := some "K",
               unauthorizedFlagUsage := false,
               derivedStatus := DerivedStatus.ACTIVE } ∧
    (initializeCycle (some "K") none none ⟨false, true⟩
      "2025-02-02T00:00:00.000Z").file = none :=
  ⟨rfl, rfl⟩

/-- C10 (amended): with a configured (non-falsy) key the ping never rejects
and deterministically returns the ACTIVE mock response carrying the key and
every feature flag; every cycle replaces the in-memory state with a fresh
record (derived status ACTIVE, `lastChecked` the cycle's time) and, provided
the file write succeeds, replaces the durable file with that record. -/
theorem c10_configured_key_mock_cycle (k : String)
    (mem : Option TCachedLicense) (file : Option JsonValue) (faults : Faults)
    (now : String) (h : (k == "") = false) :
    pingLicenseServer (some k) = (some (mockLicenseResponse k), 0) ∧
    pingLicenseServerE (some k) = Except.ok (some (mockLicenseResponse k)) ∧
    (mockLicenseRecord k).status = LicenseStatus.ACTIVE ∧
    (mockLicenseRecord k).licenseKey = k ∧
    (mockLicenseRecord k).flags =
      [("emailDomains", true), ("embedAuthoring", true),
       ("embedAuthoringWhiteLabel", true), ("cfr21", true),
       ("authenticationPortal", true), ("billing", true)] ∧
    (initializeCycle (some k) mem file faults now).mem
      = some { lastChecked := now, license := some (mockLicenseRecord k),
               requestedLicenseKey := some k, unauthorizedFlagUsage := false,
               derivedStatus := DerivedStatus.ACTIVE } ∧
    (faults.writeFails = false →
      (initializeCycle (some k) mem file faults now).file
        = some (encodeCached { lastChecked := now,
                               license := some (mockLicenseRecord k),
                               requestedLicenseKey := some k,
                               unauthorizedFlagUsage := false,
                               derivedStatus := DerivedStatus.ACTIVE })) := by
  have hp : pingLicenseServer (some k) = (some (mockLicenseResponse k), 0) := by
    simp [pingLicenseServer, strFalsy, h]
  have hp1 : (pingLicenseServer (some k)).1 = some (mockLicenseResponse k) := by
    rw [hp]
  refine ⟨hp, by simp [pingLicenseServerE, hp1], rfl, rfl, rfl, ?_, ?_⟩
  · simp only [initializeCycle, hp1, initializeWith_ok_eq]
    rfl
  · intro hw
    simp only [initializeCycle, hp1, initializeWith_ok_eq, saveToFile, hw]
    simp only [Bool.false_eq_true, if_false]
    rfl

/-- Witness for C10 (amended) at a concrete input: the key "K". -/
theorem c10_configured_key_mock_cycle_witness :
    (("K" == "") = false) ∧
    (pingLicenseServer (some "K") = (some (mockLicenseResponse "K"), 0) ∧
      pingLicenseServerE (some "K") = Except.ok (some (mockLicenseResponse "K")) ∧
      (mockLicenseRecord "K").status = LicenseStatus.ACTIVE ∧
      (mockLicenseRecord "K").licenseKey = "K" ∧
      (mockLicenseRecord "K").flags =
        [("emailDomains", true), ("embedAuthoring", true),
         ("embedAuthoringWhiteLabel", true), ("cfr21", true),
         ("authenticationPortal", true), ("billing", true)] ∧
      (initializeCycle (some "K") none none ⟨false, false⟩
        "2025-05-05T00:00:00.000Z").mem
        = some { lastChecked := "2025-05-05T00:00:00.000Z",
                 license := some (mockLicenseRecord "K"),
                 requestedLicenseKey := some "K", unauthorizedFlagUsage := false,
                 derivedStatus := DerivedStatus.ACTIVE } ∧
      ((⟨false, false⟩ : Faults).writeFails = false →
        (initializeCycle (some "K") none none ⟨false, false⟩
          "2025-05-05T00:00:00.000Z").file
          = some (encodeCached { lastChecked := "2025-05-05T00:00:00.000Z",
                                 license := some (mockLicenseRecord "K"),
                                 requestedLicenseKey := some "K",
                                 unauthorizedFlagUsage := false,
                                 derivedStatus := DerivedStatus.ACTIVE }))) :=
  ⟨rfl, c10_configured_key_mock_cycle "K" none none ⟨false, false⟩
    "2025-05-05T00:00:00.000Z" rfl⟩
